import Mathlib

/-!
Verification development for the `ledger` repository (Plaid activity export).

The Go sources are shallowly embedded:
* `time.Time` values become `Int` nanoseconds since 0001-01-01 00:00:00 UTC
  (Go's zero `time.Time`), so `IsZero` is `= 0`, `After` is `>`, and
  `Sub` is integer subtraction.
* Go maps used only for lookups become functions `String → Option _`.
* Fallible externals (file open, YAML decode, HTTP transport) become
  explicit parameters describing their outcome.
* `float64` values are carried opaquely as `Float` and every stdlib
  formatting routine (`fmt.Sprintf`, `time.Time.Format`, `fmt.Sprint`)
  is a parameter of the functions that use it, so all theorems hold for
  any interpretation of the formatters.
-/

set_option maxRecDepth 100000

namespace Ledger

/-! ## Go `time` model

`norm` mirrors Go's `time.norm`: it renormalizes a (hi, lo) pair so that
`0 ≤ lo < base`, borrowing from or carrying into `hi`. For `base > 0`
this is exactly Euclidean div/mod. -/

def timeNorm (hi lo base : Int) : Int × Int :=
  (hi + lo.ediv base, lo.emod base)

/-- Leap year test, from Go `time.isLeap`. -/
def isLeap (y : Int) : Bool :=
  y % 4 == 0 && (y % 100 != 0 || y % 400 == 0)

/-- Cumulative days before the start of month `m` (1-based) in a
non-leap year, from Go's `daysBefore` table. -/
def daysBeforeMonth (m : Int) : Int :=
  if m ≤ 1 then 0
  else if m = 2 then 31
  else if m = 3 then 59
  else if m = 4 then 90
  else if m = 5 then 120
  else if m = 6 then 151
  else if m = 7 then 181
  else if m = 8 then 212
  else if m = 9 then 243
  else if m = 10 then 273
  else if m = 11 then 304
  else if m = 12 then 334
  else 365

/-- Days from 0001-01-01 to January 1 of year `y` (proleptic Gregorian),
matching Go's `daysSinceEpoch` up to the constant epoch shift. -/
def daysFromYear1 (y : Int) : Int :=
  365 * (y - 1) + (y - 1).ediv 4 - (y - 1).ediv 100 + (y - 1).ediv 400

/-- Go `time.Date(year, month, day, hour, min, sec, nsec, time.UTC)` as
nanoseconds since 0001-01-01 00:00:00 UTC. Out-of-range fields are
normalized exactly as Go does (nsec→sec→min→hour→day, month→year);
the day is *not* normalized into the month, it is a plain day offset. -/
def goDate (year month day hour min sec nsec : Int) : Int :=
  let sn := timeNorm sec nsec 1000000000
  let ms := timeNorm min sn.1 60
  let hm := timeNorm hour ms.1 60
  let dh := timeNorm day hm.1 24
  let ym := timeNorm year (month - 1) 12
  let y := ym.1
  let m := ym.2 + 1
  let days := daysFromYear1 y + daysBeforeMonth m
    + (if isLeap y && decide (3 ≤ m) then 1 else 0) + (dh.1 - 1)
  (days * 86400 + dh.2 * 3600 + hm.2 * 60 + ms.2) * 1000000000 + sn.2

/-- Civil (year, month, day) from a day count since 0001-01-01,
following the 400/100/4/1-year cycle computation of Go's `absDate`. -/
def civilFromDays (d0 : Int) : Int × Int × Int :=
  let d1 := d0
  let n400 := d1.ediv 146097
  let y400 := 400 * n400
  let d2 := d1 - 146097 * n400
  let n100' := d2.ediv 36524
  let n100 := n100' - n100'.ediv 4
  let y100 := 100 * n100
  let d3 := d2 - 36524 * n100
  let n4 := d3.ediv 1461
  let y4 := 4 * n4
  let d4 := d3 - 1461 * n4
  let n1' := d4.ediv 365
  let n1 := n1' - n1'.ediv 4
  let year := y400 + y100 + y4 + n1 + 1
  let yday := d4 - 365 * n1
  -- month/day from the (0-based) day of year, Go `absDate` with full=true
  if isLeap year && yday == 59 then
    (year, 2, 29)
  else
    let day := if isLeap year && decide (59 < yday) then yday - 1 else yday
    let m0 := day.ediv 31
    let endBefore := daysBeforeMonth (m0 + 2)
    let (m1, begin) :=
      if endBefore ≤ day then (m0 + 1, endBefore) else (m0, daysBeforeMonth (m0 + 1))
    (year, m1 + 1, day - begin + 1)

/-- Go `t.Year()` for `t` in nanoseconds since year 1. -/
def goYear (t : Int) : Int := (civilFromDays (t.ediv 86400000000000)).1

/-- Go `t.Month()` (1-based). -/
def goMonth (t : Int) : Int := (civilFromDays (t.ediv 86400000000000)).2.1

/-- Go `t.Day()`. -/
def goDay (t : Int) : Int := (civilFromDays (t.ediv 86400000000000)).2.2

/-! ## Wire and config records (src/plaid.go) -/

/-- `APIError` from src/plaid.go (the fields the core logic reads). -/
structure APIError where
  type : String
  code : String
  message : String
  display : String
deriving Repr, DecidableEq

/-- `Item` from src/plaid.go, reduced to the fields the fetch logic reads. -/
structure Item where
  id : String
  error : APIError
deriving Repr, DecidableEq

/-- `Security` from src/plaid.go, reduced to the fields the exports read. -/
structure Security where
  id : String
  name : String
  tickerSymbol : String
  sector : String
  industry : String
deriving Repr, DecidableEq

/-- `Transaction` from src/plaid.go, reduced to the fields the export,
filter and sort stages read. Dates are `Int` nanoseconds (zero = Go's
zero time, which is what a missing `authorized_date` decodes to). -/
structure Transaction where
  id : String
  accountID : String
  amount : Float
  isoCurrency : String
  unofficialCurrency : String
  checkNumber : String
  category : List String
  date : Int
  authorizedDate : Int
  name : String
  merchantName : String
  pending : Bool

/-- `InvestmentTransaction` from src/plaid.go. -/
structure InvestmentTransaction where
  id : String
  accountID : String
  securityID : String
  date : Int
  name : String
  quantity : Float
  amount : Float
  price : Float
  fees : Float
  type : String
  subtype : String
  isoCurrency : String
  unofficialCurrency : String

instance : Inhabited Transaction :=
  ⟨⟨"", "", 0.0, "", "", "", [], 0, 0, "", "", false⟩⟩

instance : Inhabited InvestmentTransaction :=
  ⟨⟨"", "", "", 0, "", 0.0, 0.0, 0.0, 0.0, "", "", "", ""⟩⟩

/-- `ItemConfig` from src/plaid.go; the two account maps are modelled as
lookup functions, which is all the code does with them. -/
structure ItemConfig where
  name : String
  token : String
  transactions : String → Option String
  investments : String → Option String

structure ItemData where
  id : String
  transactions : List Transaction
  investments : List InvestmentTransaction
  securities : String → Option Security

/-! ## C2: `checkRefresh` (src/plaid.go lines 134-174)

Only the refresh *decision* involves logic; the surrounding HTTP calls
are transport. `txLast`/`invLast` are the two per-stream
`LastSuccessfulUpdate` timestamps from the item-status response, `now`
is `time.Now()` and `threshold` the caller's refresh threshold
(durations in nanoseconds). The returned pair says whether a
transactions-refresh resp. investments-refresh request is issued. -/

def checkRefreshDecision (txLast invLast now threshold : Int) : Bool × Bool :=
  -- lines 141-155: note the code reads res.Status.Investments for the
  -- zero check guarding the *transactions* refresh
  let lastUpdate₁ := invLast
  let transactionsAge := now - txLast
  let refreshTx := !(lastUpdate₁ == 0) && decide (threshold ≤ transactionsAge)
  -- lines 157-171
  let lastUpdate₂ := invLast
  let investmentsAge := now - invLast
  let refreshInv := !(lastUpdate₂ == 0) && decide (threshold ≤ investmentsAge)
  (refreshTx, refreshInv)

/-! ## C1: pagination loops of `RequestActivity` (src/plaid.go lines 86-126)

A stream's remote endpoint is modelled as a function from the requested
offset to the page it returns. The loop is embedded with fuel (the Go
loop would simply keep issuing requests); the fuel only bounds the
number of follow-up requests and is irrelevant for the inputs below,
which terminate after one follow-up. -/

structure TransactionsPage where
  transactions : List Transaction
  total : Int

structure InvestmentsPage where
  investmentTransactions : List InvestmentTransaction
  securities : List Security
  total : Int

/-- The transactions pagination loop (lines 93-101). Returns the
accumulated records and the list of offsets actually requested. -/
def transactionsPaginate (server : Int → TransactionsPage) (fuel : Nat) :
    List Transaction × List Int :=
  let res := server 0
  go fuel res.total res (res.transactions, [0])
where
  go : Nat → Int → TransactionsPage → List Transaction × List Int →
      List Transaction × List Int
  | 0, _, _, acc => acc
  | fuel + 1, transactionsTotal, res, (records, offsets) =>
    if decide (500 ≤ res.total) then
      let res' := server transactionsTotal
      go fuel (transactionsTotal + res'.total) res'
        (records ++ res'.transactions, offsets ++ [transactionsTotal])
    else
      (records, offsets)

/-- The investments pagination loop (lines 104-125), with the security
map accumulated exactly as the code does (later pages overwrite). -/
def investmentsPaginate (server : Int → InvestmentsPage) (fuel : Nat)
    (securities0 : String → Option Security) :
    List InvestmentTransaction × List Int × (String → Option Security) :=
  let res := server 0
  let secs := res.securities.foldl (fun m s q => if q == s.id then some s else m q) securities0
  go fuel res.total res (res.investmentTransactions, [0], secs)
where
  go : Nat → Int → InvestmentsPage →
      List InvestmentTransaction × List Int × (String → Option Security) →
      List InvestmentTransaction × List Int × (String → Option Security)
  | 0, _, _, acc => acc
  | fuel + 1, investmentsTotal, res, (records, offsets, secs) =>
    if decide (500 ≤ res.total) then
      let res' := server investmentsTotal
      let secs' := res'.securities.foldl (fun m s q => if q == s.id then some s else m q) secs
      go fuel (investmentsTotal + res'.total) res'
        (records ++ res'.investmentTransactions, offsets ++ [investmentsTotal], secs')
    else
      (records, offsets, secs)

/-! ## C10: `LoadConfig` (src/plaid.go lines 49-69)

File open and YAML decode are externals; their outcomes are inputs.
`decoded` is `none` when `yaml.Decode` fails, otherwise the decoded
environment-keyed map (as a lookup function). -/

structure ConfigRec where
  environment : String
  clientID : String
  secret : String
deriving Repr, DecidableEq

inductive LoadConfigError
  | openError
  | decodeError
  | unknownEnvironment (environment : String)
deriving Repr, DecidableEq

def loadConfig (openOk : Bool) (decoded : Option (String → Option ConfigRec))
    (environment : String) : Except LoadConfigError ConfigRec :=
  if !openOk then .error .openError
  else
    match decoded with
    | none => .error .decodeError
    | some configs =>
      match configs environment with
      | none => .error (.unknownEnvironment environment)
      | some config => .ok { config with environment := environment }

/-! ## C7: embedded provider errors in the fetch functions
(src/plaid.go lines 305-328 and 368-391)

`status` is the HTTP status code, `statusText` Go's `res.Status`
string. The function returns `some msg` when the Go function returns a
non-nil error whose text is `msg`, and `none` on success. -/

/-- The error text built at src/plaid.go line 325 / line 388. -/
def responseErrorMessage (e : APIError) : String :=
  "response error: " ++ e.type ++ " " ++ e.code ++ " " ++ e.message

/-- Error outcome of `requestItemTransactions` after transport. -/
def requestItemTransactionsError (status : Nat) (statusText : String)
    (item : Item) : Option String :=
  if status == 200 then
    if item.error.type != "" then some (responseErrorMessage item.error) else none
  else
    some ("bad response: " ++ statusText)

/-- Error outcome of `requestItemInvestments` after transport. -/
def requestItemInvestmentsError (status : Nat) (statusText : String)
    (item : Item) : Option String :=
  if status == 200 then
    if item.error.type != "" then some (responseErrorMessage item.error) else none
  else
    some ("bad response: " ++ statusText)

/-! ## Export projections (src/unnamed/part_000 lines 271-413: the
`ledger` package `WriteTransactions` / `WriteInvestments`)

Rows are `List String` in csv column order. `RenderEnv` carries the
stdlib formatting routines as opaque functions; theorems quantify over
it. `WriteOut` is the pair Go returns, `(error, count)`, plus the rows
actually written before any error (partial output is not rolled back). -/

structure RenderEnv where
  /-- `fmt.Sprintf(format, x)` for a `float64` argument. -/
  sprintf1 : String → Float → String
  /-- `time.Time.Format(layout)` on a non-zero time. -/
  timeFormat : String → Int → String
  /-- `fmt.Sprint(x)` for a `float64` argument. -/
  sprintFloat : Float → String

/-- `WriteOptions` from src/unnamed/part_000 lines 251-258. -/
structure WriteOptions where
  omitPending : Bool
  postDateFormat : String
  authDateFormat : String
  amountFormat : String
  commodityPriceFormat : String
  categoryDelimiter : String

/-- `Date.Format` from src/plaid.go lines 619-624: zero dates render
as the empty string. -/
def dateFormat (env : RenderEnv) (layout : String) (d : Int) : String :=
  if d == 0 then "" else env.timeFormat layout d

structure WriteOut where
  rows : List (List String)
  err : Option String
  written : Nat
deriving Repr

/-- Lines 278-281: `payee := transaction.MerchantName; if
transaction.Name != "" { payee = transaction.Name }` (same clause as
src/write.go lines 41-44). -/
def transactionPayee (t : Transaction) : String :=
  let payee := t.merchantName
  if t.name != "" then t.name else payee

/-- Lines 288-291. -/
def transactionCurrency (t : Transaction) : String :=
  let currency := t.isoCurrency
  if t.unofficialCurrency != "" then t.unofficialCurrency else currency

/-- Lines 331-334 / 372-375. -/
def investmentCurrency (t : InvestmentTransaction) : String :=
  let currency := t.isoCurrency
  if t.unofficialCurrency != "" then t.unofficialCurrency else currency

/-- The row written for a cash transaction (lines 294-305). -/
def transactionRow (env : RenderEnv) (options : WriteOptions)
    (itemConfig : ItemConfig) (accountName : String) (t : Transaction) :
    List String :=
  [dateFormat env options.postDateFormat t.date,
   dateFormat env options.authDateFormat t.authorizedDate,
   accountName,
   itemConfig.name,
   t.checkNumber,
   transactionPayee t,
   env.sprintf1 options.amountFormat t.amount,
   transactionCurrency t,
   String.intercalate options.categoryDelimiter t.category,
   t.id]

/-- The cash-transactions loop of `WriteTransactions` (lines 273-309). -/
def writeTxLoop (env : RenderEnv) (itemConfig : ItemConfig)
    (options : WriteOptions) : List Transaction → WriteOut
  | [] => ⟨[], none, 0⟩
  | t :: rest =>
    if options.omitPending && t.pending then
      writeTxLoop env itemConfig options rest
    else
      match itemConfig.transactions t.accountID with
      | none => ⟨[], some ("unknown account: " ++ t.accountID), 0⟩
      | some accountName =>
        let r := writeTxLoop env itemConfig options rest
        ⟨transactionRow env options itemConfig accountName t :: r.rows,
         r.err, r.written + 1⟩

/-- The row written for a cash-like investment record rendered onto the
transaction schema (lines 337-348): payee column is the security's
name, category column is `fmt.Sprintf("%s.%s", type, subtype)`. -/
def investmentCashRow (env : RenderEnv) (options : WriteOptions)
    (itemConfig : ItemConfig) (accountName : String) (security : Security)
    (t : InvestmentTransaction) : List String :=
  [dateFormat env options.postDateFormat t.date,
   "",
   accountName,
   itemConfig.name,
   "",
   security.name,
   env.sprintf1 options.amountFormat t.amount,
   investmentCurrency t,
   t.type ++ "." ++ t.subtype,
   t.id]

/-- The investments loop inside `WriteTransactions` (lines 311-349):
only `"cash"`/`"fee"` records other than subtype `"stock distribution"`
are rendered. -/
def writeInvCashLoop (env : RenderEnv) (itemConfig : ItemConfig)
    (options : WriteOptions) (securities : String → Option Security) :
    List InvestmentTransaction → WriteOut
  | [] => ⟨[], none, 0⟩
  | t :: rest =>
    if t.type != "cash" && t.type != "fee" then
      writeInvCashLoop env itemConfig options securities rest
    else if t.subtype == "stock distribution" then
      -- the only non-currency cash subtype
      writeInvCashLoop env itemConfig options securities rest
    else
      match securities t.securityID with
      | none => ⟨[], some ("unknown security: " ++ t.securityID), 0⟩
      | some security =>
        match itemConfig.investments t.accountID with
        | none => ⟨[], some ("unknown account: " ++ t.accountID), 0⟩
        | some accountName =>
          let r := writeInvCashLoop env itemConfig options securities rest
          ⟨investmentCashRow env options itemConfig accountName security t :: r.rows,
           r.err, r.written + 1⟩

/-- `WriteTransactions` (lines 271-357): the transactions loop, then —
only if it did not error — the investments loop; the error and count
are returned and rows written before an error remain. -/
def writeTransactions (env : RenderEnv) (itemConfig : ItemConfig)
    (item : ItemData) (options : WriteOptions) : WriteOut :=
  let r1 := writeTxLoop env itemConfig options item.transactions
  match r1.err with
  | some e => ⟨r1.rows, some e, r1.written⟩
  | none =>
    let r2 := writeInvCashLoop env itemConfig options item.securities item.investments
    ⟨r1.rows ++ r2.rows, r2.err, r1.written + r2.written⟩

/-- The investment-schema row (lines 388-401), with the
`sector.industry` category and its `"unknown"` fallback (lines 382-385). -/
def investmentRow (env : RenderEnv) (options : WriteOptions)
    (itemConfig : ItemConfig) (accountName : String) (security : Security)
    (t : InvestmentTransaction) : List String :=
  let category := security.sector ++ "." ++ security.industry
  let category := if category == "." then "unknown" else category
  [dateFormat env options.postDateFormat t.date,
   accountName,
   itemConfig.name,
   security.name,
   env.sprintFloat t.quantity,
   env.sprintf1 options.amountFormat t.amount,
   env.sprintf1 options.commodityPriceFormat t.price,
   t.id,
   env.sprintf1 options.amountFormat t.fees,
   investmentCurrency t,
   security.tickerSymbol,
   category]

/-- `WriteInvestments` (lines 359-413): `"cash"`/`"fee"` records are
skipped, everything else is rendered onto the investment schema. -/
def writeInvestments (env : RenderEnv) (itemConfig : ItemConfig)
    (item : ItemData) (options : WriteOptions) : WriteOut :=
  loop item.investments
where
  loop : List InvestmentTransaction → WriteOut
  | [] => ⟨[], none, 0⟩
  | t :: rest =>
    if t.type == "cash" || t.type == "fee" then
      -- non-security transaction types
      loop rest
    else
      match item.securities t.securityID with
      | none => ⟨[], some ("unknown security: " ++ t.securityID), 0⟩
      | some security =>
        match itemConfig.investments t.accountID with
        | none => ⟨[], some ("unknown account: " ++ t.accountID), 0⟩
        | some accountName =>
          let r := loop rest
          ⟨investmentRow env options itemConfig accountName security t :: r.rows,
           r.err, r.written + 1⟩

/-! ## Semimonthly clamp (src/unnamed/part_002 lines 195-226) -/

/-- The clamp boundary computed from the requested end date
(lines 196-201). -/
def runClampBoundary (endTime : Int) : Int :=
  if goDay endTime < 15 then
    goDate (goYear endTime) (goMonth endTime) 1 0 0 0 (-1)
  else
    goDate (goYear endTime) (goMonth endTime) 16 0 0 0 (-1)

/-- The transactions clamp loop (lines 203-216). -/
def clampTransactions (start clampEnd : Int) : List Transaction → List Transaction
  | [] => []
  | t :: rest =>
    if t.authorizedDate == 0 then
      if clampEnd < t.date || t.date < start then clampTransactions start clampEnd rest
      else t :: clampTransactions start clampEnd rest
    else
      if clampEnd < t.authorizedDate || t.authorizedDate < start then
        clampTransactions start clampEnd rest
      else t :: clampTransactions start clampEnd rest

/-- The investments clamp loop (lines 218-225). -/
def clampInvestments (start clampEnd : Int) :
    List InvestmentTransaction → List InvestmentTransaction
  | [] => []
  | t :: rest =>
    if clampEnd < t.date || t.date < start then clampInvestments start clampEnd rest
    else t :: clampInvestments start clampEnd rest

/-- The effective date the clamp tests: the authorized date when
non-zero, else the post date. -/
def effectiveDate (t : Transaction) : Int :=
  if t.authorizedDate = 0 then t.date else t.authorizedDate

/-! ## Pending-omission as a list operation (src/unnamed/part_000
lines 273-276: the `OmitPending && transaction.Pending` skip). -/

def filterPending (omitPending : Bool) (l : List Transaction) : List Transaction :=
  l.filter (fun t => !(omitPending && t.pending))

/-! ## Go `sort.Slice` (called at src/unnamed/part_002 lines 228-235)

The repository sorts with `sort.Slice`, whose implementation (Go 1.19+,
`sort/zsortfunc.go`) is pattern-defeating quicksort. It is embedded
below exactly, over a `List α` state mutated only through `swapL`;
`lessAt less l i j` is `data.Less(i, j)`. Loops carry explicit fuel,
instantiated at each call site with a bound that dominates the loop's
real iteration count, so the embedding computes the Go result. -/

def swapL [Inhabited α] (l : List α) (i j : Nat) : List α :=
  if h : i < l.length ∧ j < l.length then
    (l.set i (l.get ⟨j, h.2⟩)).set j (l.get ⟨i, h.1⟩)
  else l

def lessAt [Inhabited α] (less : α → α → Bool) (l : List α) (i j : Nat) : Bool :=
  less (l.getD i default) (l.getD j default)

/-- `insertionSort_func` inner shift loop. -/
def insertionShift [Inhabited α] (less : α → α → Bool) (a : Nat) :
    Nat → List α → Nat → List α
  | 0, l, _ => l
  | fuel + 1, l, j =>
    if a < j && lessAt less l j (j - 1) then
      insertionShift less a fuel (swapL l j (j - 1)) (j - 1)
    else l

/-- `insertionSort_func` outer loop over `i`. -/
def insertionFrom [Inhabited α] (less : α → α → Bool) (a b : Nat) :
    Nat → List α → Nat → List α
  | 0, l, _ => l
  | fuel + 1, l, i =>
    if i < b then
      insertionFrom less a b fuel (insertionShift less a (i + 1) l i) (i + 1)
    else l

/-- `insertionSort_func(data, a, b)`. -/
def insertionSortGo [Inhabited α] (less : α → α → Bool) (a b : Nat)
    (l : List α) : List α :=
  insertionFrom less a b (b + 1) l (a + 1)

/-- `siftDown_func(data, lo, hi, first)`. -/
def siftDownGo [Inhabited α] (less : α → α → Bool) (hi first : Nat) :
    Nat → List α → Nat → List α
  | 0, l, _ => l
  | fuel + 1, l, root =>
    let child := 2 * root + 1
    if hi ≤ child then l
    else
      let child :=
        if child + 1 < hi && lessAt less l (first + child) (first + child + 1) then
          child + 1
        else child
      if !(lessAt less l (first + root) (first + child)) then l
      else siftDownGo less hi first fuel (swapL l (first + root) (first + child)) child

/-- Heap-building loop of `heapSort_func`: `i` from `(hi-1)/2` down to 0. -/
def heapBuild [Inhabited α] (less : α → α → Bool) (hi first : Nat) :
    Nat → List α → Int → List α
  | 0, l, _ => l
  | fuel + 1, l, i =>
    if i < 0 then l
    else heapBuild less hi first fuel (siftDownGo less hi first (hi + 1) l i.toNat) (i - 1)

/-- Pop loop of `heapSort_func`: `i` from `hi-1` down to 0. -/
def heapPop [Inhabited α] (less : α → α → Bool) (first : Nat) :
    Nat → List α → Int → List α
  | 0, l, _ => l
  | fuel + 1, l, i =>
    if i < 0 then l
    else
      heapPop less first fuel
        (siftDownGo less i.toNat first (i.toNat + 1) (swapL l first (first + i.toNat)) 0)
        (i - 1)

/-- `heapSort_func(data, a, b)`. -/
def heapSortGo [Inhabited α] (less : α → α → Bool) (a b : Nat) (l : List α) :
    List α :=
  let first := a
  let hi := b - a
  let l1 := heapBuild less hi first (hi + 2) l ((Int.ofNat hi - 1).tdiv 2)
  heapPop less first (hi + 2) l1 (Int.ofNat hi - 1)

/-- `bits.Len` on a `uint`. -/
def bitsLen (n : Nat) : Nat := if n = 0 then 0 else Nat.log2 n + 1

/-- `nextPowerOfTwo` from sort/zsortfunc.go. -/
def nextPowerOfTwo (length : Nat) : Nat := 1 <<< bitsLen length

/-- One step of the `xorshift` PRNG (uint64). -/
def xorshiftNext (r : Nat) : Nat :=
  let r1 := r ^^^ ((r <<< 13) % 2 ^ 64)
  let r2 := r1 ^^^ (r1 >>> 7)
  r2 ^^^ ((r2 <<< 17) % 2 ^ 64)

/-- `breakPatterns_func(data, a, b)`: three pseudo-random swaps, PRNG
seeded with the range length. -/
def breakPatternsGo [Inhabited α] (a b : Nat) (l : List α) : List α :=
  let length := b - a
  if 8 ≤ length then
    let modulus := nextPowerOfTwo length
    let idx := a + (length / 4) * 2 - 1
    let r1 := xorshiftNext length
    let o1 := let o := r1 % modulus; if length ≤ o then o - length else o
    let l1 := swapL l (idx - 1) (a + o1)
    let r2 := xorshiftNext r1
    let o2 := let o := r2 % modulus; if length ≤ o then o - length else o
    let l2 := swapL l1 idx (a + o2)
    let r3 := xorshiftNext r2
    let o3 := let o := r3 % modulus; if length ≤ o then o - length else o
    swapL l2 (idx + 1) (a + o3)
  else l

inductive SortedHint
  | increasing
  | decreasing
  | unknown
deriving DecidableEq, Repr

/-- `order2_func`: reorders two indices, counting a swap. -/
def order2Go [Inhabited α] (less : α → α → Bool) (l : List α)
    (a b swaps : Nat) : Nat × Nat × Nat :=
  if lessAt less l b a then (b, a, swaps + 1) else (a, b, swaps)

/-- `median_func`: index of the median of three, threading the swap count. -/
def medianGo [Inhabited α] (less : α → α → Bool) (l : List α)
    (a b c swaps : Nat) : Nat × Nat :=
  let (a1, b1, s1) := order2Go less l a b swaps
  let (b2, _, s2) := order2Go less l b1 c s1
  let (_, b3, s3) := order2Go less l a1 b2 s2
  (b3, s3)

/-- `medianAdjacent_func`. -/
def medianAdjacentGo [Inhabited α] (less : α → α → Bool) (l : List α)
    (a swaps : Nat) : Nat × Nat :=
  medianGo less l (a - 1) a (a + 1) swaps

/-- `choosePivot_func(data, a, b)`. -/
def choosePivotGo [Inhabited α] (less : α → α → Bool) (l : List α)
    (a b : Nat) : Nat × SortedHint :=
  let length := b - a
  let i := a + (length / 4) * 1
  let j := a + (length / 4) * 2
  let k := a + (length / 4) * 3
  let (pivot, swaps) :=
    if 8 ≤ length then
      if 50 ≤ length then
        let (i', s1) := medianAdjacentGo less l i 0
        let (j', s2) := medianAdjacentGo less l j s1
        let (k', s3) := medianAdjacentGo less l k s2
        medianGo less l i' j' k' s3
      else
        medianGo less l i j k 0
    else (j, 0)
  if swaps = 0 then (pivot, .increasing)
  else if swaps = 12 then (pivot, .decreasing)
  else (pivot, .unknown)

/-- Scan `for i <= j && data.Less(i, a) { i++ }` of `partition_func`. -/
def partScanI [Inhabited α] (less : α → α → Bool) (l : List α)
    (aPiv j : Nat) : Nat → Nat → Nat
  | 0, i => i
  | fuel + 1, i =>
    if i ≤ j && lessAt less l i aPiv then partScanI less l aPiv j fuel (i + 1) else i

/-- Scan `for i <= j && !data.Less(j, a) { j-- }` of `partition_func`. -/
def partScanJ [Inhabited α] (less : α → α → Bool) (l : List α)
    (aPiv i : Nat) : Nat → Nat → Nat
  | 0, j => j
  | fuel + 1, j =>
    if i ≤ j && !(lessAt less l j aPiv) then partScanJ less l aPiv i fuel (j - 1) else j

/-- The swap loop of `partition_func`. Returns the state and the final
`j` at loop exit. -/
def partLoop [Inhabited α] (less : α → α → Bool) (aPiv : Nat) :
    Nat → List α → Nat → Nat → List α × Nat
  | 0, l, _, j => (l, j)
  | fuel + 1, l, i, j =>
    let i' := partScanI less l aPiv j (j + 2) i
    let j' := partScanJ less l aPiv i' (j + 2) j
    if j' < i' then (l, j')
    else partLoop less aPiv fuel (swapL l i' j') (i' + 1) (j' - 1)

/-- `partition_func(data, a, b, pivot)`: returns state, newpivot, and
`alreadyPartitioned`. -/
def partitionGo [Inhabited α] (less : α → α → Bool) (a b pivot : Nat)
    (l : List α) : List α × Nat × Bool :=
  let l0 := swapL l a pivot
  let i0 := a + 1
  let j0 := b - 1
  let i1 := partScanI less l0 a j0 (b + 2) i0
  let j1 := partScanJ less l0 a i1 (b + 2) j0
  if j1 < i1 then (swapL l0 j1 a, j1, true)
  else
    let l1 := swapL l0 i1 j1
    let pr := partLoop less a (b + 2) l1 (i1 + 1) (j1 - 1)
    (swapL pr.1 pr.2 a, pr.2, false)

/-- Scans and swap loop of `partitionEqual_func`; returns state and `i`. -/
def partEqLoop [Inhabited α] (less : α → α → Bool) (aPiv : Nat) :
    Nat → List α → Nat → Nat → List α × Nat
  | 0, l, i, _ => (l, i)
  | fuel + 1, l, i, j =>
    let i' := eqScanI l j (j + 2) i
    let j' := eqScanJ l i' (j + 2) j
    if j' < i' then (l, i')
    else partEqLoop less aPiv fuel (swapL l i' j') (i' + 1) (j' - 1)
where
  eqScanI : List α → Nat → Nat → Nat → Nat
  | _, _, 0, i => i
  | l, j, fuel + 1, i =>
    if i ≤ j && !(lessAt less l aPiv i) then eqScanI l j fuel (i + 1) else i
  eqScanJ : List α → Nat → Nat → Nat → Nat
  | _, _, 0, j => j
  | l, i, fuel + 1, j =>
    if i ≤ j && lessAt less l aPiv j then eqScanJ l i fuel (j - 1) else j

/-- `partitionEqual_func(data, a, b, pivot)`: returns state and newpivot. -/
def partitionEqualGo [Inhabited α] (less : α → α → Bool) (a b pivot : Nat)
    (l : List α) : List α × Nat :=
  let l0 := swapL l a pivot
  partEqLoop less a (b + 2) l0 (a + 1) (b - 1)

/-- Forward scan of `partialInsertionSort_func`. -/
def pisScan [Inhabited α] (less : α → α → Bool) (l : List α) (b : Nat) :
    Nat → Nat → Nat
  | 0, i => i
  | fuel + 1, i =>
    if i < b && !(lessAt less l i (i - 1)) then pisScan less l b fuel (i + 1) else i

/-- Left shift loop of `partialInsertionSort_func`. -/
def pisShiftLeft [Inhabited α] (less : α → α → Bool) :
    Nat → List α → Nat → List α
  | 0, l, _ => l
  | fuel + 1, l, j =>
    if 1 ≤ j && lessAt less l j (j - 1) then
      pisShiftLeft less fuel (swapL l j (j - 1)) (j - 1)
    else l

/-- Right shift loop of `partialInsertionSort_func`. -/
def pisShiftRight [Inhabited α] (less : α → α → Bool) (b : Nat) :
    Nat → List α → Nat → List α
  | 0, l, _ => l
  | fuel + 1, l, j =>
    if j < b && lessAt less l j (j - 1) then
      pisShiftRight less b fuel (swapL l j (j - 1)) (j + 1)
    else l

/-- `partialInsertionSort_func(data, a, b)`: at most 5 adjacent
out-of-order pairs are shifted; returns state and whether the range
ended up sorted. -/
def pisOuter [Inhabited α] (less : α → α → Bool) (a b : Nat) :
    Nat → List α → Nat → List α × Bool
  | 0, l, _ => (l, false)
  | fuel + 1, l, i =>
    let i' := pisScan less l b (b + 1) i
    if i' == b then (l, true)
    else if b - a < 50 then (l, false)
    else
      let l1 := swapL l i' (i' - 1)
      let l2 := if 2 ≤ i' - a then pisShiftLeft less (i' + 1) l1 (i' - 1) else l1
      let l3 := if 2 ≤ b - i' then pisShiftRight less b (b + 1) l2 (i' + 1) else l2
      pisOuter less a b fuel l3 i'

/-- `reverseRange_func(data, a, b)`. -/
def reverseRangeGo [Inhabited α] : Nat → List α → Nat → Nat → List α
  | 0, l, _, _ => l
  | fuel + 1, l, i, j =>
    if i < j then reverseRangeGo fuel (swapL l i j) (i + 1) (j - 1) else l

/-- `pdqsort_func(data, a, b, limit)`. The Go loop with its
`wasBalanced` / `wasPartitioned` state; iterations of the loop and the
recursive calls both consume fuel. -/
def pdqsortGo [Inhabited α] (less : α → α → Bool) :
    Nat → List α → Nat → Nat → Nat → Bool → Bool → List α
  | 0, l, _, _, _, _, _ => l
  | fuel + 1, l, a, b, limit, wasBalanced, wasPartitioned =>
    let length := b - a
    if length ≤ 12 then insertionSortGo less a b l
    else if limit = 0 then heapSortGo less a b l
    else
      let l1 := if !wasBalanced then breakPatternsGo a b l else l
      let limit1 := if !wasBalanced then limit - 1 else limit
      let ph := choosePivotGo less l1 a b
      let hintWasDecreasing := ph.2 == SortedHint.decreasing
      let l2 := if hintWasDecreasing then reverseRangeGo (b + 1) l1 a (b - 1) else l1
      let pivot := if hintWasDecreasing then (b - 1) - (ph.1 - a) else ph.1
      let hint := if hintWasDecreasing then SortedHint.increasing else ph.2
      let attempt := wasBalanced && wasPartitioned && hint == SortedHint.increasing
      if attempt && (pisOuter less a b 5 l2 (a + 1)).2 then
        (pisOuter less a b 5 l2 (a + 1)).1
      else
        let l3 := if attempt then (pisOuter less a b 5 l2 (a + 1)).1 else l2
        if 0 < a && !(lessAt less l3 (a - 1) pivot) then
          let pe := partitionEqualGo less a b pivot l3
          pdqsortGo less fuel pe.1 pe.2 b limit1 wasBalanced wasPartitioned
        else
          let pr := partitionGo less a b pivot l3
          let mid := pr.2.1
          let wasPartitioned' := pr.2.2
          let leftLen := mid - a
          let rightLen := b - mid
          let balanceThreshold := length / 8
          let wasBalanced' := decide (balanceThreshold ≤ min leftLen rightLen)
          if leftLen < rightLen then
            let lrec := pdqsortGo less fuel pr.1 a mid limit1 true true
            pdqsortGo less fuel lrec (mid + 1) b limit1 wasBalanced' wasPartitioned'
          else
            let lrec := pdqsortGo less fuel pr.1 (mid + 1) b limit1 true true
            pdqsortGo less fuel lrec a mid limit1 wasBalanced' wasPartitioned'

/-- `sort.Slice(x, less)`: `limit = bits.Len(uint(length))`. -/
def goSortSlice [Inhabited α] (less : α → α → Bool) (l : List α) : List α :=
  let length := l.length
  let limit := bitsLen length
  pdqsortGo less (2 * length + limit + 8) l 0 length limit true true

/-- The sort applied to an item's transaction list (src/unnamed/part_002
lines 229-231): `less(i, j)` is
`transactions[j].Date.Time.After(transactions[i].Date.Time)`,
i.e. strictly ascending post date. -/
def sortTransactionsByDate (l : List Transaction) : List Transaction :=
  goSortSlice (fun x y => decide (x.date < y.date)) l

/-- The sort applied to an item's investment list (lines 232-234). -/
def sortInvestmentsByDate (l : List InvestmentTransaction) : List InvestmentTransaction :=
  goSortSlice (fun x y => decide (x.date < y.date)) l

/-- Insert a record into an ascending-by-date list, before the first
record whose date is not smaller — so a record earlier in the input
stays before equal-date records that came later. -/
def stableInsertByDate (x : Transaction) : List Transaction → List Transaction
  | [] => [x]
  | y :: ys => if y.date < x.date then y :: stableInsertByDate x ys else x :: y :: ys

/-- Reference definition following the specification's words: a *stable*
ascending-date sort of the transaction list (insertion sort, which is
stable). Used only to compare the code's sort against the claimed one. -/
def stableSortTransactionsByDate (l : List Transaction) : List Transaction :=
  l.foldr stableInsertByDate []

/-! ## Concrete inputs used by counterexamples and witnesses -/

/-- A server whose first page carries 500 records but reports 600
available in total; any later page reports fewer than 500. -/
def c1TxServer : Int → TransactionsPage := fun offset =>
  if offset == 0 then ⟨List.replicate 500 default, 600⟩ else ⟨[], 100⟩

/-- A server whose first page reports 120 available in total. -/
def c1TxServerShort : Int → TransactionsPage := fun _ =>
  ⟨List.replicate 120 default, 120⟩

def c1InvServer : Int → InvestmentsPage := fun offset =>
  if offset == 0 then ⟨List.replicate 500 default, [], 600⟩ else ⟨[], [], 100⟩

def c1InvServerShort : Int → InvestmentsPage := fun _ =>
  ⟨List.replicate 120 default, [], 120⟩

/-- A transaction whose name and merchant name are both non-empty and
differ. -/
def c3Txn : Transaction :=
  { id := "tx-1", accountID := "acc-1", amount := 12.5, isoCurrency := "USD",
    unofficialCurrency := "", checkNumber := "", category := ["Food"],
    date := goDate 2024 3 5 0 0 0 0, authorizedDate := 0,
    name := "UBER EATS PENDING 0325", merchantName := "Uber Eats",
    pending := false }

def c3Cfg : ItemConfig :=
  { name := "MyBank", token := "tok",
    transactions := fun a => if a == "acc-1" then some "Checking" else none,
    investments := fun _ => none }

def c3Item : ItemData :=
  { id := "item-1", transactions := [c3Txn], investments := [],
    securities := fun _ => none }

/-- A concrete rendering environment (any one will do for witnesses). -/
def exEnv : RenderEnv :=
  { sprintf1 := fun _ _ => "amt", timeFormat := fun _ _ => "date",
    sprintFloat := fun _ => "qty" }

def exOpts : WriteOptions :=
  { omitPending := true, postDateFormat := "2006-01-02",
    authDateFormat := "2006-01-02", amountFormat := "%0.2f",
    commodityPriceFormat := "%g", categoryDelimiter := "." }

/-- A populated provider error embedded in an otherwise-successful
response. -/
def c7Error : APIError :=
  { type := "ITEM_ERROR", code := "ITEM_LOGIN_REQUIRED",
    message := "the provided credentials were invalid",
    display := "Please update your login information" }

def c7Item : Item := { id := "item-1", error := c7Error }

/-! ## C1 — confirmed bug: the pagination offset re-sums reported totals

src/plaid.go line 93/100: `transactionsTotal := transactionsRes.Total`,
then `transactionsTotal += transactionsRes.Total`, and line 95 issues
the follow-up request at offset `transactionsTotal` — the sum of the
per-page reported totals, not the count of records received. -/

/-- C1: against a stream whose first page carries 500 records and
reports 600 available, the code's second request goes out at offset 600
even though only 500 records were received; a stream reporting 120 on
page one gets no second request. Both pagination loops (transactions,
investments) behave identically. -/
theorem c1_offset_resums_reported_totals :
    (transactionsPaginate c1TxServer 8).2 = [0, 600] ∧
    (c1TxServer 0).transactions.length = 500 ∧
    (600 : Int) ≠ 500 ∧
    (transactionsPaginate c1TxServerShort 8).2 = [0] ∧
    (investmentsPaginate c1InvServer 8 (fun _ => none)).2.1 = [0, 600] ∧
    (c1InvServer 0).investmentTransactions.length = 500 ∧
    (investmentsPaginate c1InvServerShort 8 (fun _ => none)).2.1 = [0] := by
  refine ⟨?_, ?_, by decide, ?_, ?_, ?_, ?_⟩ <;> rfl

/-! ## C2 — confirmed bug: the transactions-refresh guard reads the
investments timestamp

src/plaid.go line 141: `lastUpdate := res.Status.Investments.LastSuccessfulUpdate`
guards the *transactions* branch (lines 143-155). -/

/-- C2: with a zero transactions timestamp and a fresh (non-zero)
investments timestamp the code *does* issue a transactions refresh
(the claim requires a zero own-stream timestamp to suppress it), and
with a stale non-zero transactions timestamp but a zero investments
timestamp the code issues *no* transactions refresh (the claim requires
one). Threshold 24h, both evaluated at a concrete `now`. -/
theorem c2_transactions_guard_uses_investments_timestamp :
    checkRefreshDecision 0 (goDate 2024 3 20 11 0 0 0)
      (goDate 2024 3 20 12 0 0 0) 86400000000000 = (true, false) ∧
    checkRefreshDecision (goDate 2024 1 1 0 0 0 0) 0
      (goDate 2024 3 20 12 0 0 0) 86400000000000 = (false, false) ∧
    (0 : Int) = 0 ∧
    goDate 2024 1 1 0 0 0 0 ≠ 0 ∧
    86400000000000 ≤ goDate 2024 3 20 12 0 0 0 - goDate 2024 1 1 0 0 0 0 := by
  exact ⟨by decide, by decide, rfl, by decide, by decide⟩

/-! ## C3 — the payee column prefers the transaction name, not the
merchant name -/

/-- C3 counterexample: for a transaction whose merchant name is the
non-empty `"Uber Eats"` and whose name is `"UBER EATS PENDING 0325"`,
the row written by `WriteTransactions` carries the *name* in the payee
column, not the merchant name. -/
theorem c3_payee_counterexample :
    (writeTransactions exEnv c3Cfg c3Item exOpts).rows.map (fun r => r.getD 5 "")
      = ["UBER EATS PENDING 0325"] ∧
    c3Txn.merchantName = "Uber Eats" ∧
    c3Txn.merchantName ≠ "" ∧
    ("UBER EATS PENDING 0325" : String) ≠ "Uber Eats" := by
  refine ⟨by decide, rfl, by decide, by decide⟩

/-! ## C7 — embedded provider errors propagate on 200, but the display
message is not preserved

src/plaid.go line 325 / 388 formats only `Type`, `Code` and `Message`
into the error: `fmt.Errorf("response error: %s %s %s", ...)`. -/

/-- C7 counterexample: for a populated provider error the fetch
functions do error on HTTP 200, but the display-message field (here
non-empty and distinct from every other field) does not occur anywhere
in the returned error message, so the message does not preserve all
four fields. -/
theorem c7_display_message_not_preserved :
    requestItemTransactionsError 200 "200 OK" c7Item =
      some "response error: ITEM_ERROR ITEM_LOGIN_REQUIRED the provided credentials were invalid" ∧
    ¬ (c7Error.display.toList <:+:
      ("response error: ITEM_ERROR ITEM_LOGIN_REQUIRED the provided credentials were invalid").toList) ∧
    c7Error.display ≠ "" := by
  refine ⟨rfl, by decide, by decide⟩

/-- C7 as amended: whenever the decoded response's embedded error-type
field is populated, both fetch functions return an error even though
the HTTP status was 200, and the error message preserves the type, the
code and the message fields (the display message is dropped). -/
theorem c7_provider_error_propagates_with_three_fields
    (item : Item) (statusText : String) (h : item.error.type ≠ "") :
    requestItemTransactionsError 200 statusText item
        = some (responseErrorMessage item.error) ∧
    requestItemInvestmentsError 200 statusText item
        = some (responseErrorMessage item.error) ∧
    item.error.type.toList <:+: (responseErrorMessage item.error).toList ∧
    item.error.code.toList <:+: (responseErrorMessage item.error).toList ∧
    item.error.message.toList <:+: (responseErrorMessage item.error).toList := by
  have hb : (item.error.type != "") = true := by
    simp [h]
  refine ⟨?_, ?_, ?_, ?_, ?_⟩
  · simp [requestItemTransactionsError, hb]
  · simp [requestItemInvestmentsError, hb]
  · refine ⟨"response error: ".toList,
      (" " ++ item.error.code ++ " " ++ item.error.message).toList, ?_⟩
    simp [responseErrorMessage, String.toList]
  · refine ⟨("response error: " ++ item.error.type ++ " ").toList,
      (" " ++ item.error.message).toList, ?_⟩
    simp [responseErrorMessage, String.toList]
  · refine ⟨("response error: " ++ item.error.type ++ " " ++ item.error.code ++ " ").toList,
      ([] : List Char), ?_⟩
    simp [responseErrorMessage, String.toList]

/-- C7 witness: the amended theorem applied to the concrete populated
error. -/
theorem c7_provider_error_witness :
    c7Item.error.type ≠ "" ∧
    requestItemTransactionsError 200 "200 OK" c7Item
      = some (responseErrorMessage c7Item.error) :=
  ⟨by decide, (c7_provider_error_propagates_with_three_fields c7Item "200 OK" (by decide)).1⟩

/-! ## C10 — `LoadConfig` (src/plaid.go lines 49-69) -/

/-- C10: `loadConfig` fails exactly on open failure, decode failure, or
a missing environment key; on success it returns the decoded entry for
the requested environment with its `environment` field overwritten by
the requested environment string. -/
theorem c10_loadConfig_characterization :
    (∀ decoded env, loadConfig false decoded env = .error .openError) ∧
    (∀ env, loadConfig true none env = .error .decodeError) ∧
    (∀ configs env, configs env = none →
      loadConfig true (some configs) env = .error (.unknownEnvironment env)) ∧
    (∀ configs env c, configs env = some c →
      loadConfig true (some configs) env = .ok { c with environment := env }) ∧
    (∀ openOk decoded env out, loadConfig openOk decoded env = .ok out →
      out.environment = env) := by
  refine ⟨fun decoded env => rfl, fun env => rfl, ?_, ?_, ?_⟩
  · intro configs env h
    simp [loadConfig, h]
  · intro configs env c h
    simp [loadConfig, h]
  · intro openOk decoded env out h
    cases openOk with
    | false => simp [loadConfig] at h
    | true =>
      cases decoded with
      | none => simp [loadConfig] at h
      | some configs =>
        cases hc : configs env with
        | none => simp [loadConfig, hc] at h
        | some c =>
          simp [loadConfig, hc] at h
          subst h
          rfl

/-- C10 witness: a concrete environment map exercises the success case
and the environment-field overwrite. -/
theorem c10_loadConfig_witness :
    loadConfig true
      (some (fun e => if e == "sandbox" then
        some { environment := "stale", clientID := "id", secret := "s" } else none))
      "sandbox"
      = .ok { environment := "sandbox", clientID := "id", secret := "s" } :=
  (c10_loadConfig_characterization.2.2.2.1
    (fun e => if e == "sandbox" then
      some { environment := "stale", clientID := "id", secret := "s" } else none)
    "sandbox" { environment := "stale", clientID := "id", secret := "s" } rfl)

/-! ## Row characterizations of the export loops -/

instance : Inhabited Security := ⟨⟨"", "", "", "", ""⟩⟩

/-- The row `writeTxLoop` writes for a non-skipped transaction, with
the account name spelled via the config lookup. -/
def txRowOf (env : RenderEnv) (opts : WriteOptions) (cfg : ItemConfig)
    (t : Transaction) : List String :=
  transactionRow env opts cfg ((cfg.transactions t.accountID).getD "") t

/-- Which cash-like investment records produce a row on the transaction
schema, and that row. -/
def invCashProj (env : RenderEnv) (opts : WriteOptions) (cfg : ItemConfig)
    (secs : String → Option Security) (t : InvestmentTransaction) :
    Option (List String) :=
  if (t.type == "cash" || t.type == "fee") && !(t.subtype == "stock distribution") then
    some (investmentCashRow env opts cfg ((cfg.investments t.accountID).getD "")
      ((secs t.securityID).getD default) t)
  else none

/-- Which investment records produce a row on the investment schema,
and that row. -/
def invProj (env : RenderEnv) (opts : WriteOptions) (cfg : ItemConfig)
    (secs : String → Option Security) (t : InvestmentTransaction) :
    Option (List String) :=
  if t.type == "cash" || t.type == "fee" then none
  else
    some (investmentRow env opts cfg ((cfg.investments t.accountID).getD "")
      ((secs t.securityID).getD default) t)

theorem writeTxLoop_rows_of_err_none (env : RenderEnv) (cfg : ItemConfig)
    (opts : WriteOptions) (l : List Transaction)
    (h : (writeTxLoop env cfg opts l).err = none) :
    (writeTxLoop env cfg opts l).rows
      = (l.filter (fun t => !(opts.omitPending && t.pending))).map (txRowOf env opts cfg) := by
  induction l with
  | nil => rfl
  | cons t rest ih =>
    by_cases hskip : (opts.omitPending && t.pending) = true
    · have h' : (writeTxLoop env cfg opts rest).err = none := by
        simpa [writeTxLoop, hskip] using h
      rw [List.filter_cons]
      simpa [writeTxLoop, hskip] using ih h'
    · have hskip' : (opts.omitPending && t.pending) = false := by
        revert hskip
        cases opts.omitPending && t.pending <;> simp
      cases hacct : cfg.transactions t.accountID with
      | none =>
        exfalso
        simp [writeTxLoop, hskip', hacct] at h
      | some acct =>
        have h' : (writeTxLoop env cfg opts rest).err = none := by
          simpa [writeTxLoop, hskip', hacct] using h
        have hrow : txRowOf env opts cfg t = transactionRow env opts cfg acct t := by
          simp [txRowOf, hacct]
        rw [List.filter_cons]
        simp only [hskip', Bool.not_false, if_pos, List.map_cons, hrow]
        simpa [writeTxLoop, hskip', hacct] using ih h'

theorem writeInvCashLoop_rows_of_err_none (env : RenderEnv) (cfg : ItemConfig)
    (opts : WriteOptions) (secs : String → Option Security)
    (l : List InvestmentTransaction)
    (h : (writeInvCashLoop env cfg opts secs l).err = none) :
    (writeInvCashLoop env cfg opts secs l).rows
      = l.filterMap (invCashProj env opts cfg secs) := by
  induction l with
  | nil => rfl
  | cons t rest ih =>
    by_cases hty : (t.type != "cash" && t.type != "fee") = true
    · have h' : (writeInvCashLoop env cfg opts secs rest).err = none := by
        simpa [writeInvCashLoop, hty] using h
      have hproj : invCashProj env opts cfg secs t = none := by
        simp only [Bool.and_eq_true, bne_iff_ne] at hty
        simp [invCashProj, hty.1, hty.2]
      rw [List.filterMap_cons_none hproj]
      simpa [writeInvCashLoop, hty] using ih h'
    · by_cases hsub : (t.subtype == "stock distribution") = true
      · have h' : (writeInvCashLoop env cfg opts secs rest).err = none := by
          simpa [writeInvCashLoop, hty, hsub] using h
        have hproj : invCashProj env opts cfg secs t = none := by
          simp [invCashProj, hsub]
        rw [List.filterMap_cons_none hproj]
        simpa [writeInvCashLoop, hty, hsub] using ih h'
      · cases hsec : secs t.securityID with
        | none =>
          exfalso
          simp [writeInvCashLoop, hty, hsub, hsec] at h
        | some sec =>
          cases hacct : cfg.investments t.accountID with
          | none =>
            exfalso
            simp [writeInvCashLoop, hty, hsub, hsec, hacct] at h
          | some acct =>
            have h' : (writeInvCashLoop env cfg opts secs rest).err = none := by
              simpa [writeInvCashLoop, hty, hsub, hsec, hacct] using h
            have hty0 : t.type = "cash" ∨ t.type = "fee" := by
              by_contra hc
              push_neg at hc
              exact hty (by simp [hc.1, hc.2])
            have hty' : (t.type == "cash" || t.type == "fee") = true := by
              rcases hty0 with h1 | h1 <;> simp [h1]
            have hproj : invCashProj env opts cfg secs t
                = some (investmentCashRow env opts cfg acct sec t) := by
              simp [invCashProj, hty', hsub, hsec, hacct]
            rw [List.filterMap_cons_some hproj]
            simpa [writeInvCashLoop, hty, hsub, hsec, hacct] using ih h'

theorem writeInvestmentsLoop_rows_of_err_none (env : RenderEnv) (cfg : ItemConfig)
    (item : ItemData) (opts : WriteOptions) (l : List InvestmentTransaction)
    (h : (writeInvestments.loop env cfg item opts l).err = none) :
    (writeInvestments.loop env cfg item opts l).rows
      = l.filterMap (invProj env opts cfg item.securities) := by
  induction l with
  | nil => rfl
  | cons t rest ih =>
    by_cases hty : (t.type == "cash" || t.type == "fee") = true
    · have hrest : (writeInvestments.loop env cfg item opts rest).err = none := by
        simpa [writeInvestments.loop, hty] using h
      have hproj : invProj env opts cfg item.securities t = none := by
        simp [invProj, hty]
      rw [List.filterMap_cons_none hproj]
      simpa [writeInvestments.loop, hty] using ih hrest
    · cases hsec : item.securities t.securityID with
      | none =>
        exfalso
        simp [writeInvestments.loop, hty, hsec] at h
      | some sec =>
        cases hacct : cfg.investments t.accountID with
        | none =>
          exfalso
          simp [writeInvestments.loop, hty, hsec, hacct] at h
        | some acct =>
          have hrest : (writeInvestments.loop env cfg item opts rest).err = none := by
            simpa [writeInvestments.loop, hty, hsec, hacct] using h
          have hproj : invProj env opts cfg item.securities t
              = some (investmentRow env opts cfg acct sec t) := by
            simp [invProj, hty, hsec, hacct]
          rw [List.filterMap_cons_some hproj]
          simpa [writeInvestments.loop, hty, hsec, hacct] using ih hrest

theorem writeInvestments_rows_of_err_none (env : RenderEnv) (cfg : ItemConfig)
    (item : ItemData) (opts : WriteOptions)
    (h : (writeInvestments env cfg item opts).err = none) :
    (writeInvestments env cfg item opts).rows
      = item.investments.filterMap (invProj env opts cfg item.securities) :=
  writeInvestmentsLoop_rows_of_err_none env cfg item opts item.investments h

/-- Splitting `writeTransactions` on a successful run: both loops
succeeded and the rows are the transaction rows followed by the
cash-like investment rows. -/
theorem writeTransactions_rows_of_err_none (env : RenderEnv) (cfg : ItemConfig)
    (item : ItemData) (opts : WriteOptions)
    (h : (writeTransactions env cfg item opts).err = none) :
    (writeTxLoop env cfg opts item.transactions).err = none ∧
    (writeInvCashLoop env cfg opts item.securities item.investments).err = none ∧
    (writeTransactions env cfg item opts).rows
      = (item.transactions.filter (fun t => !(opts.omitPending && t.pending))).map
          (txRowOf env opts cfg)
        ++ item.investments.filterMap (invCashProj env opts cfg item.securities) := by
  cases h1 : (writeTxLoop env cfg opts item.transactions).err with
  | some e =>
    exfalso
    simp [writeTransactions, h1] at h
  | none =>
    have h2 : (writeInvCashLoop env cfg opts item.securities item.investments).err = none := by
      simpa [writeTransactions, h1] using h
    refine ⟨rfl, h2, ?_⟩
    simp [writeTransactions, h1,
      writeTxLoop_rows_of_err_none env cfg opts item.transactions h1,
      writeInvCashLoop_rows_of_err_none env cfg opts item.securities item.investments h2]

/-- C3 as amended: in every row written by `WriteTransactions` for a
cash transaction, the payee column equals the transaction's *name*
when the name is non-empty, and falls back to the merchant name only
when the name is empty. -/
theorem c3_payee_prefers_transaction_name (env : RenderEnv) (cfg : ItemConfig)
    (item : ItemData) (opts : WriteOptions)
    (h : (writeTransactions env cfg item opts).err = none)
    (t : Transaction) (ht : t ∈ item.transactions)
    (hkeep : (opts.omitPending && t.pending) = false) :
    txRowOf env opts cfg t ∈ (writeTransactions env cfg item opts).rows ∧
    (txRowOf env opts cfg t).getD 5 ""
      = (if t.name = "" then t.merchantName else t.name) := by
  obtain ⟨-, -, hrows⟩ := writeTransactions_rows_of_err_none env cfg item opts h
  constructor
  · rw [hrows]
    exact List.mem_append_left _
      (List.mem_map_of_mem _ (List.mem_filter.mpr ⟨ht, by simp [hkeep]⟩))
  · show (transactionRow env opts cfg _ t).getD 5 "" = _
    by_cases hn : t.name = ""
    · simp [transactionRow, transactionPayee, hn]
    · simp [transactionRow, transactionPayee, hn]

/-- C3 witness: the amended theorem at the concrete transaction whose
name and merchant name differ. -/
theorem c3_payee_witness :
    txRowOf exEnv exOpts c3Cfg c3Txn ∈ (writeTransactions exEnv c3Cfg c3Item exOpts).rows ∧
    (txRowOf exEnv exOpts c3Cfg c3Txn).getD 5 "" = "UBER EATS PENDING 0325" := by
  have h := c3_payee_prefers_transaction_name exEnv c3Cfg c3Item exOpts (by decide)
    c3Txn (by simp [c3Item]) (by decide)
  exact ⟨h.1, h.2.trans (by decide)⟩

/-! ## C9 — pending transactions are skipped before account resolution -/

/-- C9: when pending omission is enabled, a pending transaction is
dropped before its account identifier is resolved: prepending it to an
item changes nothing about the export — no row, no unknown-account
error — whatever the account mapping says about its account ID. -/
theorem c9_pending_skips_account_resolution (env : RenderEnv) (cfg : ItemConfig)
    (opts : WriteOptions) (item : ItemData) (t : Transaction)
    (ho : opts.omitPending = true) (hp : t.pending = true) :
    writeTransactions env cfg { item with transactions := t :: item.transactions } opts
      = writeTransactions env cfg item opts := by
  simp [writeTransactions, writeTxLoop, ho, hp]

/-- A pending transaction whose account ID is absent from the mapping. -/
def c9Txn : Transaction :=
  { c3Txn with id := "tx-9", accountID := "no-such-account", pending := true }

/-- C9 witness: the theorem at a concrete pending transaction whose
account is unmapped; the export result is unchanged and error-free. -/
theorem c9_pending_witness :
    writeTransactions exEnv c3Cfg
        { c3Item with transactions := c9Txn :: c3Item.transactions } exOpts
      = writeTransactions exEnv c3Cfg c3Item exOpts ∧
    c3Cfg.transactions c9Txn.accountID = none ∧
    c9Txn.pending = true ∧
    exOpts.omitPending = true :=
  ⟨c9_pending_skips_account_resolution exEnv c3Cfg exOpts c3Item c9Txn rfl rfl,
   by decide, rfl, rfl⟩

/-! ## C6 — the two investment projections -/

def divSec : Security :=
  { id := "sec-1", name := "Vanguard Total Stock Market",
    tickerSymbol := "VTI", sector := "", industry := "" }

def divTxn : InvestmentTransaction :=
  { id := "inv-1", accountID := "acc-2", securityID := "sec-1",
    date := goDate 2024 3 8 0 0 0 0, name := "Dividend", quantity := 0.0,
    amount := 1.23, price := 0.0, fees := 0.0, type := "cash",
    subtype := "dividend", isoCurrency := "USD", unofficialCurrency := "" }

def stockDistTxn : InvestmentTransaction :=
  { divTxn with id := "inv-2", subtype := "stock distribution" }

def buyTxn : InvestmentTransaction :=
  { divTxn with id := "inv-3", type := "buy", subtype := "buy" }

def c6Cfg : ItemConfig :=
  { name := "Broker", token := "tok",
    transactions := fun _ => none,
    investments := fun a => if a == "acc-2" then some "Brokerage" else none }

def c6Item : ItemData :=
  { id := "item-2", transactions := [], investments := [divTxn, stockDistTxn, buyTxn],
    securities := fun s => if s == "sec-1" then some divSec else none }

/-- C6: on a successful export, the transaction projection renders
exactly the `"cash"`/`"fee"` investment records whose subtype is not
`"stock distribution"` — with the resolved security's name in the payee
column and `type.subtype` in the category column — while the investment
projection renders exactly the records of every other type; a
`"stock distribution"` record yields a row in neither projection. -/
theorem c6_investment_projections (env : RenderEnv) (cfg : ItemConfig)
    (item : ItemData) (opts : WriteOptions) :
    ((writeTransactions env cfg item opts).err = none →
      (writeTransactions env cfg item opts).rows
        = (item.transactions.filter (fun t => !(opts.omitPending && t.pending))).map
            (txRowOf env opts cfg)
          ++ item.investments.filterMap (invCashProj env opts cfg item.securities)) ∧
    ((writeInvestments env cfg item opts).err = none →
      (writeInvestments env cfg item opts).rows
        = item.investments.filterMap (invProj env opts cfg item.securities)) ∧
    (∀ t sec acct, (t.type = "cash" ∨ t.type = "fee") →
      t.subtype ≠ "stock distribution" →
      item.securities t.securityID = some sec →
      cfg.investments t.accountID = some acct →
      invCashProj env opts cfg item.securities t
          = some (investmentCashRow env opts cfg acct sec t) ∧
      (investmentCashRow env opts cfg acct sec t).getD 5 "" = sec.name ∧
      (investmentCashRow env opts cfg acct sec t).getD 8 ""
          = t.type ++ "." ++ t.subtype) ∧
    (∀ t, (t.type = "cash" ∨ t.type = "fee") →
      invProj env opts cfg item.securities t = none) ∧
    (∀ t, t.subtype = "stock distribution" →
      invCashProj env opts cfg item.securities t = none) ∧
    (∀ t, t.type ≠ "cash" → t.type ≠ "fee" →
      invCashProj env opts cfg item.securities t = none ∧
      (∀ sec acct, item.securities t.securityID = some sec →
        cfg.investments t.accountID = some acct →
        invProj env opts cfg item.securities t
          = some (investmentRow env opts cfg acct sec t))) := by
  refine ⟨fun h => (writeTransactions_rows_of_err_none env cfg item opts h).2.2,
    fun h => writeInvestments_rows_of_err_none env cfg item opts h, ?_, ?_, ?_, ?_⟩
  · intro t sec acct hty hsub hsec hacct
    have hty' : (t.type == "cash" || t.type == "fee") = true := by
      rcases hty with h1 | h1 <;> simp [h1]
    refine ⟨by simp [invCashProj, hty', hsub, hsec, hacct], rfl, rfl⟩
  · intro t hty
    have hty' : (t.type == "cash" || t.type == "fee") = true := by
      rcases hty with h1 | h1 <;> simp [h1]
    simp [invProj, hty']
  · intro t hsub
    simp [invCashProj, hsub]
  · intro t h1 h2
    refine ⟨by simp [invCashProj, h1, h2], ?_⟩
    intro sec acct hsec hacct
    simp [invProj, h1, h2, hsec, hacct]

/-- C6 witness: the dividend record renders onto the transaction schema
with category `cash.dividend` and payee `divSec.name`; the
stock-distribution record appears in neither projection; the buy
record appears only in the investment projection. -/
theorem c6_witness :
    (writeTransactions exEnv c6Cfg c6Item exOpts).rows
        = [investmentCashRow exEnv exOpts c6Cfg "Brokerage" divSec divTxn] ∧
    (investmentCashRow exEnv exOpts c6Cfg "Brokerage" divSec divTxn).getD 8 ""
        = "cash.dividend" ∧
    (investmentCashRow exEnv exOpts c6Cfg "Brokerage" divSec divTxn).getD 5 ""
        = "Vanguard Total Stock Market" ∧
    (writeInvestments exEnv c6Cfg c6Item exOpts).rows
        = [investmentRow exEnv exOpts c6Cfg "Brokerage" divSec buyTxn] := by
  have h := c6_investment_projections exEnv c6Cfg c6Item exOpts
  have h3 := h.2.2.1 divTxn divSec "Brokerage" (Or.inl rfl) (by decide) rfl rfl
  refine ⟨(h.1 rfl).trans ?_, h3.2.2.trans (by decide), h3.2.1.trans (by decide),
    (h.2.1 rfl).trans ?_⟩
  · rw [show c6Item.transactions = [] from rfl]
    rw [show c6Item.investments = [divTxn, stockDistTxn, buyTxn] from rfl]
    rw [List.filterMap_cons_some (h3.1.trans rfl)]
    rw [List.filterMap_cons_none (by simp [invCashProj, stockDistTxn])]
    rw [List.filterMap_cons_none (by simp [invCashProj, buyTxn, divTxn])]
    rfl
  · rw [show c6Item.investments = [divTxn, stockDistTxn, buyTxn] from rfl]
    rw [List.filterMap_cons_none (by simp [invProj, divTxn])]
    rw [List.filterMap_cons_none (by simp [invProj, stockDistTxn, divTxn])]
    rw [List.filterMap_cons_some (by simp [invProj, buyTxn, divTxn]; rfl)]
    rfl

/-! ## C5 — semimonthly clamping -/

/-- `time.Date(y, m, d, 0, 0, 0, -1, loc)` is one nanosecond before
`time.Date(y, m, d, 0, 0, 0, 0, loc)`: the `-1` nanosecond normalizes
through sec/min/hour/day into the last instant of the preceding day. -/
theorem goDate_minus_one_ns (y m d : Int) :
    goDate y m d 0 0 0 (-1) = goDate y m d 0 0 0 0 - 1 := by
  have e1 : ((-1 : Int).ediv 1000000000) = -1 := by decide
  have e2 : ((-1 : Int).emod 1000000000) = 999999999 := by decide
  have e3 : ((-1 : Int).ediv 60) = -1 := by decide
  have e4 : ((-1 : Int).emod 60) = 59 := by decide
  have e5 : ((-1 : Int).ediv 24) = -1 := by decide
  have e6 : ((-1 : Int).emod 24) = 23 := by decide
  have z1 : ((0 : Int).ediv 1000000000) = 0 := by decide
  have z2 : ((0 : Int).emod 1000000000) = 0 := by decide
  have z3 : ((0 : Int).ediv 60) = 0 := by decide
  have z4 : ((0 : Int).emod 60) = 0 := by decide
  have z5 : ((0 : Int).ediv 24) = 0 := by decide
  have z6 : ((0 : Int).emod 24) = 0 := by decide
  simp only [goDate, timeNorm, Int.add_zero, Int.zero_add,
    e1, e2, e3, e4, e5, e6, z1, z2, z3, z4, z5, z6]
  ring

/-- The transactions clamp loop is the filter retaining exactly the
records whose effective date (authorized when non-zero, else post)
lies in `[start, clampEnd]`, both ends included. -/
theorem clampTransactions_eq_filter (start clampEnd : Int) (l : List Transaction) :
    clampTransactions start clampEnd l
      = l.filter (fun t =>
          decide (start ≤ effectiveDate t ∧ effectiveDate t ≤ clampEnd)) := by
  induction l with
  | nil => rfl
  | cons t rest ih =>
    rw [List.filter_cons]
    by_cases hz : t.authorizedDate = 0
    · have heff : effectiveDate t = t.date := by simp [effectiveDate, hz]
      by_cases h1 : clampEnd < t.date
      · have : ¬ (start ≤ effectiveDate t ∧ effectiveDate t ≤ clampEnd) := by
          rw [heff]; omega
        simp [clampTransactions, hz, h1, this, ih]
      · by_cases h2 : t.date < start
        · have : ¬ (start ≤ effectiveDate t ∧ effectiveDate t ≤ clampEnd) := by
            rw [heff]; omega
          simp [clampTransactions, hz, h1, h2, this, ih]
        · have : start ≤ effectiveDate t ∧ effectiveDate t ≤ clampEnd := by
            rw [heff]; omega
          simp [clampTransactions, hz, h1, h2, this, ih]
    · have heff : effectiveDate t = t.authorizedDate := by simp [effectiveDate, hz]
      by_cases h1 : clampEnd < t.authorizedDate
      · have : ¬ (start ≤ effectiveDate t ∧ effectiveDate t ≤ clampEnd) := by
          rw [heff]; omega
        simp [clampTransactions, hz, h1, this, ih]
      · by_cases h2 : t.authorizedDate < start
        · have : ¬ (start ≤ effectiveDate t ∧ effectiveDate t ≤ clampEnd) := by
            rw [heff]; omega
          simp [clampTransactions, hz, h1, h2, this, ih]
        · have : start ≤ effectiveDate t ∧ effectiveDate t ≤ clampEnd := by
            rw [heff]; omega
          simp [clampTransactions, hz, h1, h2, this, ih]

/-- The investments clamp loop filters on the record's own date under
the same boundary. -/
theorem clampInvestments_eq_filter (start clampEnd : Int)
    (l : List InvestmentTransaction) :
    clampInvestments start clampEnd l
      = l.filter (fun t => decide (start ≤ t.date ∧ t.date ≤ clampEnd)) := by
  induction l with
  | nil => rfl
  | cons t rest ih =>
    rw [List.filter_cons]
    by_cases h1 : clampEnd < t.date
    · have : ¬ (start ≤ t.date ∧ t.date ≤ clampEnd) := by omega
      simp [clampInvestments, h1, this, ih]
    · by_cases h2 : t.date < start
      · have : ¬ (start ≤ t.date ∧ t.date ≤ clampEnd) := by omega
        simp [clampInvestments, h1, h2, this, ih]
      · have : start ≤ t.date ∧ t.date ≤ clampEnd := by omega
        simp [clampInvestments, h1, h2, this, ih]

/-- C5: the clamp boundary for end date 2024-03-10 (day < 15) is
2024-02-29 23:59:59.999999999 and for 2024-03-20 (day ≥ 15) it is
2024-03-15 23:59:59.999999999 — in general `time.Date(..., -1)` is the
last nanosecond before the named instant — and a transaction is
retained iff its effective date (authorized when non-zero, else post)
lies in `[start, boundary]`, an investment record likewise on its own
date. -/
theorem c5_semimonthly_clamp :
    (∀ y m d : Int, goDate y m d 0 0 0 (-1) = goDate y m d 0 0 0 0 - 1) ∧
    runClampBoundary (goDate 2024 3 10 0 0 0 0)
        = goDate 2024 2 29 23 59 59 999999999 ∧
    runClampBoundary (goDate 2024 3 20 0 0 0 0)
        = goDate 2024 3 15 23 59 59 999999999 ∧
    (∀ start clampEnd l, clampTransactions start clampEnd l
      = l.filter (fun t =>
          decide (start ≤ effectiveDate t ∧ effectiveDate t ≤ clampEnd))) ∧
    (∀ start clampEnd l, clampInvestments start clampEnd l
      = l.filter (fun t => decide (start ≤ t.date ∧ t.date ≤ clampEnd))) :=
  ⟨goDate_minus_one_ns, by decide, by decide,
   clampTransactions_eq_filter, clampInvestments_eq_filter⟩

/-! ## The embedded sort permutes its input

Every mutation in the pdqsort embedding is a `swapL`, so each helper
returns a permutation of its input state. -/

theorem cons_set_perm [Inhabited α] :
    ∀ (t : List α) (m : Nat) (hm : m < t.length) (a : α),
      (t.get ⟨m, hm⟩ :: t.set m a).Perm (a :: t) := by
  intro t
  induction t with
  | nil => intro m hm a; exact absurd hm (by simp)
  | cons b t' ih =>
    intro m hm a
    cases m with
    | zero => simpa using List.Perm.swap a b t'
    | succ k =>
      have hk : k < t'.length := Nat.lt_of_succ_lt_succ hm
      have e1 : (b :: t').get ⟨k + 1, hm⟩ = t'.get ⟨k, hk⟩ := rfl
      have e2 : (b :: t').set (k + 1) a = b :: t'.set k a := rfl
      rw [e1, e2]
      refine (List.Perm.swap b (t'.get ⟨k, hk⟩) (t'.set k a)).trans ?_
      exact ((ih k hk a).cons b).trans (List.Perm.swap a b t')

theorem set_set_perm [Inhabited α] :
    ∀ (l : List α) (i j : Nat) (hi : i < l.length) (hj : j < l.length),
      ((l.set i (l.get ⟨j, hj⟩)).set j (l.get ⟨i, hi⟩)).Perm l := by
  intro l
  induction l with
  | nil => intro i j hi _; exact absurd hi (by simp)
  | cons a t ih =>
    intro i j hi hj
    cases i with
    | zero =>
      cases j with
      | zero => simp
      | succ k =>
        have hk : k < t.length := Nat.lt_of_succ_lt_succ hj
        simpa using cons_set_perm t k hk a
    | succ n =>
      cases j with
      | zero =>
        have hn : n < t.length := Nat.lt_of_succ_lt_succ hi
        simpa using cons_set_perm t n hn a
      | succ k =>
        have hn : n < t.length := Nat.lt_of_succ_lt_succ hi
        have hk : k < t.length := Nat.lt_of_succ_lt_succ hj
        simpa using (ih n k hn hk).cons a

theorem swapL_perm [Inhabited α] (l : List α) (i j : Nat) :
    (swapL l i j).Perm l := by
  unfold swapL
  split
  · next h => exact set_set_perm l i j h.1 h.2
  · exact .refl l

theorem insertionShift_perm [Inhabited α] (less : α → α → Bool) (a : Nat) :
    ∀ (fuel : Nat) (l : List α) (j : Nat), (insertionShift less a fuel l j).Perm l := by
  intro fuel
  induction fuel with
  | zero => intro l j; exact .refl l
  | succ fuel ih =>
    intro l j
    rw [insertionShift]
    split
    · exact (ih _ _).trans (swapL_perm l j (j - 1))
    · exact .refl l

theorem insertionFrom_perm [Inhabited α] (less : α → α → Bool) (a b : Nat) :
    ∀ (fuel : Nat) (l : List α) (i : Nat), (insertionFrom less a b fuel l i).Perm l := by
  intro fuel
  induction fuel with
  | zero => intro l i; exact .refl l
  | succ fuel ih =>
    intro l i
    rw [insertionFrom]
    split
    · exact (ih _ _).trans (insertionShift_perm less a _ l i)
    · exact .refl l

theorem insertionSortGo_perm [Inhabited α] (less : α → α → Bool) (a b : Nat)
    (l : List α) : (insertionSortGo less a b l).Perm l :=
  insertionFrom_perm less a b (b + 1) l (a + 1)

theorem siftDownGo_perm [Inhabited α] (less : α → α → Bool) (hi first : Nat) :
    ∀ (fuel : Nat) (l : List α) (root : Nat),
      (siftDownGo less hi first fuel l root).Perm l := by
  intro fuel
  induction fuel with
  | zero => intro l root; exact .refl l
  | succ fuel ih =>
    intro l root
    rw [siftDownGo]
    dsimp only
    repeat' split
    all_goals first
      | exact .refl l
      | exact (ih _ _).trans (swapL_perm l _ _)

theorem heapBuild_perm [Inhabited α] (less : α → α → Bool) (hi first : Nat) :
    ∀ (fuel : Nat) (l : List α) (i : Int), (heapBuild less hi first fuel l i).Perm l := by
  intro fuel
  induction fuel with
  | zero => intro l i; exact .refl l
  | succ fuel ih =>
    intro l i
    rw [heapBuild]
    split
    · exact .refl l
    · exact (ih _ _).trans (siftDownGo_perm less hi first (hi + 1) l _)

theorem heapPop_perm [Inhabited α] (less : α → α → Bool) (first : Nat) :
    ∀ (fuel : Nat) (l : List α) (i : Int), (heapPop less first fuel l i).Perm l := by
  intro fuel
  induction fuel with
  | zero => intro l i; exact .refl l
  | succ fuel ih =>
    intro l i
    rw [heapPop]
    split
    · exact .refl l
    · exact (ih _ _).trans ((siftDownGo_perm less _ first _ _ 0).trans (swapL_perm l _ _))

theorem heapSortGo_perm [Inhabited α] (less : α → α → Bool) (a b : Nat)
    (l : List α) : (heapSortGo less a b l).Perm l :=
  (heapPop_perm less a (b - a + 2) _ _).trans (heapBuild_perm less (b - a) a (b - a + 2) l _)

theorem breakPatternsGo_perm [Inhabited α] (a b : Nat) (l : List α) :
    (breakPatternsGo a b l).Perm l := by
  unfold breakPatternsGo
  dsimp only
  split
  · exact (swapL_perm _ _ _).trans ((swapL_perm _ _ _).trans (swapL_perm _ _ _))
  · exact .refl l

theorem reverseRangeGo_perm [Inhabited α] :
    ∀ (fuel : Nat) (l : List α) (i j : Nat), (reverseRangeGo fuel l i j).Perm l := by
  intro fuel
  induction fuel with
  | zero => intro l i j; exact .refl l
  | succ fuel ih =>
    intro l i j
    rw [reverseRangeGo]
    split
    · exact (ih _ _ _).trans (swapL_perm l i j)
    · exact .refl l

theorem pisShiftLeft_perm [Inhabited α] (less : α → α → Bool) :
    ∀ (fuel : Nat) (l : List α) (j : Nat), (pisShiftLeft less fuel l j).Perm l := by
  intro fuel
  induction fuel with
  | zero => intro l j; exact .refl l
  | succ fuel ih =>
    intro l j
    rw [pisShiftLeft]
    split
    · exact (ih _ _).trans (swapL_perm l j (j - 1))
    · exact .refl l

theorem pisShiftRight_perm [Inhabited α] (less : α → α → Bool) (b : Nat) :
    ∀ (fuel : Nat) (l : List α) (j : Nat), (pisShiftRight less b fuel l j).Perm l := by
  intro fuel
  induction fuel with
  | zero => intro l j; exact .refl l
  | succ fuel ih =>
    intro l j
    rw [pisShiftRight]
    split
    · exact (ih _ _).trans (swapL_perm l j (j - 1))
    · exact .refl l

theorem pisOuter_perm [Inhabited α] (less : α → α → Bool) (a b : Nat) :
    ∀ (fuel : Nat) (l : List α) (i : Nat), ((pisOuter less a b fuel l i).1).Perm l := by
  intro fuel
  induction fuel with
  | zero => intro l i; exact .refl l
  | succ fuel ih =>
    intro l i
    rw [pisOuter]
    dsimp only
    repeat' split
    all_goals first
      | exact .refl l
      | exact (ih _ _).trans ((pisShiftRight_perm less b _ _ _).trans
          ((pisShiftLeft_perm less _ _ _).trans (swapL_perm l _ _)))
      | exact (ih _ _).trans ((pisShiftRight_perm less b _ _ _).trans (swapL_perm l _ _))
      | exact (ih _ _).trans ((pisShiftLeft_perm less _ _ _).trans (swapL_perm l _ _))
      | exact (ih _ _).trans (swapL_perm l _ _)

theorem partLoop_perm [Inhabited α] (less : α → α → Bool) (aPiv : Nat) :
    ∀ (fuel : Nat) (l : List α) (i j : Nat), ((partLoop less aPiv fuel l i j).1).Perm l := by
  intro fuel
  induction fuel with
  | zero => intro l i j; exact .refl l
  | succ fuel ih =>
    intro l i j
    rw [partLoop]
    split
    · exact .refl l
    · exact (ih _ _ _).trans (swapL_perm l _ _)

theorem partitionGo_perm [Inhabited α] (less : α → α → Bool) (a b pivot : Nat)
    (l : List α) : ((partitionGo less a b pivot l).1).Perm l := by
  unfold partitionGo
  dsimp only
  split
  · exact (swapL_perm _ _ _).trans (swapL_perm l a pivot)
  · exact (swapL_perm _ _ _).trans ((partLoop_perm less a _ _ _ _).trans
      ((swapL_perm _ _ _).trans (swapL_perm l a pivot)))

theorem partEqLoop_perm [Inhabited α] (less : α → α → Bool) (aPiv : Nat) :
    ∀ (fuel : Nat) (l : List α) (i j : Nat), ((partEqLoop less aPiv fuel l i j).1).Perm l := by
  intro fuel
  induction fuel with
  | zero => intro l i j; exact .refl l
  | succ fuel ih =>
    intro l i j
    rw [partEqLoop]

    split
    · exact .refl l
    · exact (ih _ _ _).trans (swapL_perm l _ _)

theorem partitionEqualGo_perm [Inhabited α] (less : α → α → Bool) (a b pivot : Nat)
    (l : List α) : ((partitionEqualGo less a b pivot l).1).Perm l :=
  (partEqLoop_perm less a (b + 2) _ _ _).trans (swapL_perm l a pivot)

set_option maxHeartbeats 2000000 in
theorem pdqsortGo_perm [Inhabited α] (less : α → α → Bool) :
    ∀ (fuel : Nat) (l : List α) (a b limit : Nat) (wb wp : Bool),
      (pdqsortGo less fuel l a b limit wb wp).Perm l := by
  intro fuel
  induction fuel with
  | zero => intro l a b limit wb wp; exact .refl l
  | succ fuel ih =>
    intro l a b limit wb wp
    rw [pdqsortGo]
    dsimp only
    split
    · exact insertionSortGo_perm less a b l
    split
    · exact heapSortGo_perm less a b l
    have hbp : (breakPatternsGo a b l).Perm l := breakPatternsGo_perm a b l
    generalize hq : breakPatternsGo a b l = q at hbp ⊢
    have hL1 : (if (!wb) = true then q else l).Perm l := by
      split
      · exact hbp
      · exact .refl l
    generalize hg1 : (if (!wb) = true then q else l) = L1 at hL1 ⊢
    have hrr : (reverseRangeGo (b + 1) L1 a (b - 1)).Perm L1 :=
      reverseRangeGo_perm (b + 1) L1 a (b - 1)
    generalize hg2 : reverseRangeGo (b + 1) L1 a (b - 1) = R at hrr ⊢
    generalize hg3 : choosePivotGo less L1 a b = ph
    have hL2 : (if (ph.2 == SortedHint.decreasing) = true then R else L1).Perm l := by
      split
      · exact hrr.trans hL1
      · exact hL1
    generalize hg4 : (if (ph.2 == SortedHint.decreasing) = true then R else L1) = L2
      at hL2 ⊢
    have hpis : ((pisOuter less a b 5 L2 (a + 1)).1).Perm L2 :=
      pisOuter_perm less a b 5 L2 (a + 1)
    generalize hg5 : pisOuter less a b 5 L2 (a + 1) = PIS at hpis ⊢
    have hPIS : (PIS.1).Perm l := hpis.trans hL2
    generalize hg6a : (wb && wp
        && ((if (ph.2 == SortedHint.decreasing) = true then SortedHint.increasing
              else ph.2) == SortedHint.increasing)) = att
    have hL3 : (if att = true then PIS.1 else L2).Perm l := by
      split
      · exact hPIS
      · exact hL2
    generalize hg6 : (if att = true then PIS.1 else L2) = L3 at hL3 ⊢
    generalize hg7 : (if (ph.2 == SortedHint.decreasing) = true
        then b - 1 - (ph.1 - a) else ph.1) = pv
    have hPE : ((partitionEqualGo less a b pv L3).1).Perm L3 :=
      partitionEqualGo_perm less a b pv L3
    have hPR : ((partitionGo less a b pv L3).1).Perm L3 :=
      partitionGo_perm less a b pv L3
    split
    · exact hPIS
    split
    · exact (ih _ _ _ _ _ _).trans (hPE.trans hL3)
    split
    · exact (ih _ _ _ _ _ _).trans ((ih _ _ _ _ _ _).trans (hPR.trans hL3))
    · exact (ih _ _ _ _ _ _).trans ((ih _ _ _ _ _ _).trans (hPR.trans hL3))

/-- `sort.Slice` returns a permutation of its input. -/
theorem goSortSlice_perm [Inhabited α] (less : α → α → Bool) (l : List α) :
    (goSortSlice less l).Perm l :=
  pdqsortGo_perm less _ l 0 l.length (bitsLen l.length) true true

/-! ## C4 / C8 — the sort is an unstable (but deterministic) permutation

Concrete input: 13 records alternating between two dates. 13 exceeds
pdqsort's insertion-sort cutoff (12), so the quicksort partition runs
and reorders records of equal date. -/

def sortExDate1 : Int := goDate 2024 3 4 0 0 0 0
def sortExDate2 : Int := goDate 2024 3 5 0 0 0 0

def sortExTxn (i : String) (d : Int) (p : Bool) : Transaction :=
  { id := i, accountID := "acc-1", amount := 1.0, isoCurrency := "USD",
    unofficialCurrency := "", checkNumber := "", category := [], date := d,
    authorizedDate := 0, name := "n", merchantName := "m", pending := p }

/-- Dates alternate `d2 d1 d2 d1 …`; ids record the aggregation order. -/
def c4Txns : List Transaction :=
  [sortExTxn "t00" sortExDate2 false, sortExTxn "t01" sortExDate1 false,
   sortExTxn "t02" sortExDate2 false, sortExTxn "t03" sortExDate1 false,
   sortExTxn "t04" sortExDate2 false, sortExTxn "t05" sortExDate1 false,
   sortExTxn "t06" sortExDate2 false, sortExTxn "t07" sortExDate1 false,
   sortExTxn "t08" sortExDate2 false, sortExTxn "t09" sortExDate1 false,
   sortExTxn "t10" sortExDate2 false, sortExTxn "t11" sortExDate1 false,
   sortExTxn "t12" sortExDate2 false]

def sortExInv (i : String) (d : Int) : InvestmentTransaction :=
  { id := i, accountID := "a", securityID := "s", date := d, name := "x",
    quantity := 0.0, amount := 0.0, price := 0.0, fees := 0.0, type := "buy",
    subtype := "buy", isoCurrency := "USD", unofficialCurrency := "" }

def c4Invs : List InvestmentTransaction :=
  [sortExInv "v00" sortExDate2, sortExInv "v01" sortExDate1,
   sortExInv "v02" sortExDate2, sortExInv "v03" sortExDate1,
   sortExInv "v04" sortExDate2, sortExInv "v05" sortExDate1,
   sortExInv "v06" sortExDate2, sortExInv "v07" sortExDate1,
   sortExInv "v08" sortExDate2, sortExInv "v09" sortExDate1,
   sortExInv "v10" sortExDate2, sortExInv "v11" sortExDate1,
   sortExInv "v12" sortExDate2]

/-- Same dates and ids as `c4Txns`, but the first record is pending. -/
def c8Txns : List Transaction :=
  [sortExTxn "t00" sortExDate2 true, sortExTxn "t01" sortExDate1 false,
   sortExTxn "t02" sortExDate2 false, sortExTxn "t03" sortExDate1 false,
   sortExTxn "t04" sortExDate2 false, sortExTxn "t05" sortExDate1 false,
   sortExTxn "t06" sortExDate2 false, sortExTxn "t07" sortExDate1 false,
   sortExTxn "t08" sortExDate2 false, sortExTxn "t09" sortExDate1 false,
   sortExTxn "t10" sortExDate2 false, sortExTxn "t11" sortExDate1 false,
   sortExTxn "t12" sortExDate2 false]

/-- C4: the claim (and §4.5 of the specification, "stability is
required") demands a *stable* ascending-date sort; the code sorts with
`sort.Slice`, which is not stable. Evaluating the code at the failing
input — 13 records over two dates — it produces `t09` before `t01`
although both carry the earlier date and `t01` precedes `t09` in
aggregation order. The output is still in ascending date order and is
a permutation of the input (only the stability guarantee is violated,
as the comparison against the stable reference sort of the same input
shows), and the investment sort misorders the same pattern
identically. -/
theorem c4_unstable_sort_at_failing_input :
    (sortTransactionsByDate c4Txns).map Transaction.id
        = ["t09", "t01", "t03", "t05", "t07", "t11",
           "t02", "t04", "t06", "t08", "t00", "t10", "t12"] ∧
    (stableSortTransactionsByDate c4Txns).map Transaction.id
        = ["t01", "t03", "t05", "t07", "t09", "t11",
           "t00", "t02", "t04", "t06", "t08", "t10", "t12"] ∧
    (sortTransactionsByDate c4Txns).map Transaction.id
        ≠ (stableSortTransactionsByDate c4Txns).map Transaction.id ∧
    c4Txns.map Transaction.id
        = ["t00", "t01", "t02", "t03", "t04", "t05", "t06",
           "t07", "t08", "t09", "t10", "t11", "t12"] ∧
    (c4Txns.getD 1 default).date = (c4Txns.getD 9 default).date ∧
    List.Pairwise (fun x y => x.date ≤ y.date) (sortTransactionsByDate c4Txns) ∧
    (sortInvestmentsByDate c4Invs).map InvestmentTransaction.id
        = ["v09", "v01", "v03", "v05", "v07", "v11",
           "v02", "v04", "v06", "v08", "v00", "v10", "v12"] := by
  refine ⟨by decide, by decide, by decide, by decide, by decide, by decide, by decide⟩

/-- C8 counterexample: filtering the pending record out first and then
sorting (12 records: the stable insertion-sort regime) gives a
different sequence than sorting all 13 records first (quicksort regime,
ties reordered) and then filtering. -/
theorem c8_filter_sort_do_not_commute :
    (sortTransactionsByDate (filterPending true c8Txns)).map Transaction.id
        = ["t01", "t03", "t05", "t07", "t09", "t11",
           "t02", "t04", "t06", "t08", "t10", "t12"] ∧
    (filterPending true (sortTransactionsByDate c8Txns)).map Transaction.id
        = ["t09", "t01", "t03", "t05", "t07", "t11",
           "t02", "t04", "t06", "t08", "t10", "t12"] ∧
    (sortTransactionsByDate (filterPending true c8Txns)).map Transaction.id
        ≠ (filterPending true (sortTransactionsByDate c8Txns)).map Transaction.id := by
  refine ⟨by decide, by decide, by decide⟩

/-- C8 as amended: pending-omission filtering is idempotent; filtering
then sorting yields a permutation of sorting then filtering (the same
records, though ties may be ordered differently); and the two agree
exactly whenever pending omission is disabled. -/
theorem c8_filter_idempotent_sort_commutes_up_to_perm :
    (∀ (b : Bool) (l : List Transaction),
      filterPending b (filterPending b l) = filterPending b l) ∧
    (∀ (b : Bool) (l : List Transaction),
      (sortTransactionsByDate (filterPending b l)).Perm
        (filterPending b (sortTransactionsByDate l))) ∧
    (∀ l : List Transaction,
      sortTransactionsByDate (filterPending false l)
        = filterPending false (sortTransactionsByDate l)) := by
  refine ⟨?_, ?_, ?_⟩
  · intro b l
    unfold filterPending
    rw [List.filter_filter]
    exact List.filter_congr (fun a _ => by cases (b && a.pending) <;> simp)
  · intro b l
    exact (goSortSlice_perm _ _).trans
      (((goSortSlice_perm _ l).filter _).symm)
  · intro l
    have hid : ∀ m : List Transaction, filterPending false m = m := by
      intro m
      unfold filterPending
      simp
    rw [hid, hid]

end Ledger
